import Mathlib

/-!
Shallow embedding of the survey-analysis engine of this repository.

The repository contains two implementations of the same conceptual engine:
  * `src/survey_analyzer.py` (class `SurveyAnalyzer`): heuristic type
    inference over a single raw table, embedded in namespace
    `SurveyAnalyzer` below;
  * `so_lib/core.py` and `so_lib/analysis.py`: schema-driven functions over
    a schema table plus a raw-data table, embedded in namespace `SoLib`.

Cells are modelled as `Option String` (pandas NaN = `none`); a row is an
association list from column name to cell; percentages are exact rationals
(Python floats are idealized as exact rational arithmetic).  String
helpers (lower-casing, substring test, splitting on a separator,
whitespace trimming) are defined by structural recursion over the
character list so that concrete instances evaluate.
-/

/-- Python `str.lower()` (per-character lower-casing). -/
def lowerStr (s : String) : String := String.mk (s.data.map Char.toLower)

/-- Auxiliary test: the first list starts the second list. -/
def isPre : List Char → List Char → Bool
  | [], _ => true
  | _ :: _, [] => false
  | a :: as, b :: bs => a == b && isPre as bs

/-- Test `hasSub pat hay`: `pat` occurs as a contiguous run inside `hay`.
Models the Python `pat in hay` substring test (and the substring reading of
`pandas.Series.str.contains`, regex metacharacters aside). -/
def hasSub (pat : List Char) : List Char → Bool
  | [] => isPre pat []
  | c :: t => isPre pat (c :: t) || hasSub pat t

/-- Python `pat in hay` on strings (case-sensitive substring test). -/
def strContains (hay pat : String) : Bool := hasSub pat.data hay.data

/-- Case-insensitive substring test: Python `pat.lower() in hay.lower()`. -/
def containsCI (hay pat : String) : Bool := strContains (lowerStr hay) (lowerStr pat)

/-- Split a character list on a separator; mirrors Python `str.split(sep)`
for a one-character separator: `"".split(";") = [""]`, empty fragments are
kept. -/
def splitOnChar (sep : Char) : List Char → List (List Char)
  | [] => [[]]
  | c :: cs =>
    match splitOnChar sep cs with
    | [] => [[]]
    | h :: t => if c == sep then [] :: h :: t else (c :: h) :: t

/-- Python `cell.split(';')`. -/
def splitCell (s : String) : List String := (splitOnChar ';' s.data).map String.mk

/-- Drop surrounding whitespace from a character list. -/
def stripList (l : List Char) : List Char :=
  ((l.dropWhile Char.isWhitespace).reverse.dropWhile Char.isWhitespace).reverse

/-- Python `str.strip()`. -/
def strip (s : String) : String := String.mk (stripList s.data)

/-- A string with no leading and no trailing whitespace character. -/
def noEdgeWhite (s : String) : Bool :=
  (s.data.head?.all fun c => !c.isWhitespace) && (s.data.getLast?.all fun c => !c.isWhitespace)

/-- A survey cell: `none` models a pandas null (NaN); values are kept as
strings (the code passes every cell through `str(...)` before use). -/
abbrev Cell := Option String

/-- A row: association list from column name to cell. -/
abbrev Row := List (String × Cell)

/-- Cell of a row in a given column (`row[col]`); a column missing from the
association list reads as null. -/
def getCell (r : Row) (c : String) : Cell :=
  match r.find? (fun p => p.1 == c) with
  | some p => p.2
  | none => none

/-- An in-memory table: ordered column names and ordered rows
(a pandas DataFrame). -/
structure Table where
  cols : List String
  rows : List Row
deriving DecidableEq

/-- The column of a table under a question id (`df[q]`), in row order. -/
def colValues (t : Table) (q : String) : List Cell :=
  t.rows.map (fun r => getCell r q)

/-- Pandas `df[q].dropna()`: the non-null cells of a column, in row order. -/
def dropna (t : Table) (q : String) : List String :=
  (colValues t q).filterMap id

/-- Pandas `df[q].notna().sum()`: number of non-null cells of a column. -/
def notnaCount (t : Table) (q : String) : Nat := (dropna t q).length

/-- First non-null value of a column, if any (`df[q].dropna().iloc[0]`). -/
def firstNonNull (t : Table) (q : String) : Option String := (dropna t q).head?

/-- First-occurrence deduplication with an accumulator of already seen
values; models the key order of a Python dict / `pandas.unique`. -/
def firstDedupAux (seen : List String) : List String → List String
  | [] => []
  | x :: xs =>
    if x ∈ seen then firstDedupAux seen xs
    else x :: firstDedupAux (x :: seen) xs

/-- Distinct values of a list, first occurrence first (Python dict key
order, `pandas.Series.unique`). -/
def firstDedup (l : List String) : List String := firstDedupAux [] l

/-- Value-count pairs of a list in first-occurrence order: the content of
the Python dict `{v: count}` built by one left-to-right counting pass. -/
def counts (l : List String) : List (String × Nat) :=
  (firstDedup l).map (fun o => (o, l.count o))

/-- Descending-count order on value-count pairs. -/
def cntGE : (String × Nat) → (String × Nat) → Prop := fun a b => b.2 ≤ a.2

instance : DecidableRel cntGE := fun a b => inferInstanceAs (Decidable (b.2 ≤ a.2))

instance : IsTotal (String × Nat) cntGE := ⟨fun a b => le_total b.2 a.2⟩

instance : IsTrans (String × Nat) cntGE := ⟨fun _ _ _ h1 h2 => le_trans h2 h1⟩

/-- Pandas `Series.value_counts()`: value-count pairs sorted by descending
count (stable on the first-occurrence enumeration). -/
def valueCounts (l : List String) : List (String × Nat) :=
  (counts l).insertionSort cntGE

/-- Percentage `count / total * 100`, in exact rational arithmetic. -/
def pct (total count : Nat) : ℚ := (count : ℚ) / (total : ℚ) * 100

/-- Descending-percentage order on distribution entries. -/
def pctGE : (String × ℚ) → (String × ℚ) → Prop := fun a b => b.2 ≤ a.2

instance : DecidableRel pctGE := fun a b => inferInstanceAs (Decidable (b.2 ≤ a.2))

instance : IsTotal (String × ℚ) pctGE := ⟨fun a b => le_total b.2 a.2⟩

instance : IsTrans (String × ℚ) pctGE := ⟨fun _ _ _ h1 h2 => le_trans h2 h1⟩

/-- Python `sorted(d.items(), key=lambda x: x[1], reverse=True)`: stable
sort by descending percentage. -/
def sortDesc (l : List (String × ℚ)) : List (String × ℚ) := l.insertionSort pctGE

/-- Lexicographic (code-point) strict order on character lists, as used by
Python `sorted` on strings. -/
def lexLt : List Char → List Char → Bool
  | [], [] => false
  | [], _ :: _ => true
  | _ :: _, [] => false
  | a :: as, b :: bs => if a < b then true else if b < a then false else lexLt as bs

/-- Non-strict lexicographic order on strings. -/
def strLE : String → String → Prop := fun a b => lexLt b.data a.data = false

instance : DecidableRel strLE := fun a b => inferInstanceAs (Decidable (lexLt b.data a.data = false))

/-- Python `sorted(list_of_strings)`. -/
def sortStrings (l : List String) : List String := l.insertionSort strLE

/-- The error kinds the engine reports (Python raises `ValueError` with a
distinguishing message; the spec names them as below). -/
inductive Err
  | unknownQuestion
  | invalidArgument
  | invalidSchema
  | typeMismatch
deriving DecidableEq

/-- Question type: single choice, multiple choice, or empty column. -/
inductive QType
  | SC
  | MC
  | EMPTY
deriving DecidableEq

/-- Round half to even (Python `round` on an exact value). -/
def roundHalfEven (x : ℚ) : ℤ :=
  if x - (⌊x⌋ : ℚ) < 1 / 2 then ⌊x⌋
  else if (1 : ℚ) / 2 < x - (⌊x⌋ : ℚ) then ⌊x⌋ + 1
  else if ⌊x⌋ % 2 = 0 then ⌊x⌋ else ⌊x⌋ + 1

/-- Python `round(x, 2)` idealized over exact rationals. -/
def round2 (x : ℚ) : ℚ := (roundHalfEven (x * 100) : ℚ) / 100

namespace SurveyAnalyzer

/-- Distinct non-null raw values of a column
(`df[col].dropna().unique()`). -/
def uniqueVals (t : Table) (q : String) : List String := firstDedup (dropna t q)

/-- Type inference of `SurveyAnalyzer._analyze_structure`: empty when the
column has no non-null value, else MC iff the first non-null value
contains the separator, else SC. -/
def inferType (t : Table) (q : String) : QType :=
  if (uniqueVals t q).length = 0 then .EMPTY
  else if strContains ((firstNonNull t q).getD "") ";" then .MC
  else .SC

/-- Per-question metadata recorded by `_analyze_structure`. -/
structure QInfo where
  qtype : QType
  unique_values : Nat
  response_count : Nat
deriving DecidableEq

/-- Embeds `SurveyAnalyzer._analyze_structure`: one entry per column other than
`ResponseId`, in column order. -/
def analyze_structure (t : Table) : List (String × QInfo) :=
  (t.cols.filter (fun c => c != "ResponseId")).map (fun c =>
    (c, { qtype := inferType t c
          unique_values := (uniqueVals t c).length
          response_count := notnaCount t c }))

/-- The state of a loaded `SurveyAnalyzer`: the raw table (the question
catalog is recomputed from it on demand; the Python class caches it in
`self.questions` / `self.question_types` at load time). -/
structure Analyzer where
  table : Table
deriving DecidableEq

/-- Lookup `self.question_types.get(question)`: the inferred type of a question,
or `none` for a column the catalog does not know. -/
def Analyzer.qTypeOf (a : Analyzer) (q : String) : Option QType :=
  ((analyze_structure a.table).find? (fun p => p.1 == q)).map (fun p => p.2.qtype)

/-- Embeds `SurveyAnalyzer.search_questions`: catalog keys containing the keyword
case-insensitively, in catalog order.  No validation of the keyword. -/
def search_questions (a : Analyzer) (keyword : String) : List String :=
  ((analyze_structure a.table).map Prod.fst).filter (fun q => containsCI q keyword)

/-- Embeds `SurveyAnalyzer.search_options`: for MC, the set of stripped
semicolon-fragments of the non-null cells; otherwise the distinct non-null
values; filtered by the keyword case-insensitively and returned sorted. -/
def search_options (a : Analyzer) (q keyword : String) : Except Err (List String) :=
  if q ∈ a.table.cols then
    if a.qTypeOf q = some .MC then
      .ok (sortStrings ((firstDedup
        ((dropna a.table q).flatMap (fun v => (splitCell v).map strip))).filter
          (fun o => containsCI o keyword)))
    else
      .ok (sortStrings ((firstDedup (dropna a.table q)).filter
        (fun o => containsCI o keyword)))
  else .error .unknownQuestion

/-- Embeds `SurveyAnalyzer.create_subset`: MC rows match by non-null
case-insensitive containment of the option in the raw cell
(`str.contains(option, case=False, na=False)`); other rows by exact cell
equality. -/
def create_subset (a : Analyzer) (q opt : String) : Except Err Table :=
  if q ∈ a.table.cols then
    if a.qTypeOf q = some .MC then
      .ok ⟨a.table.cols, a.table.rows.filter (fun r =>
        match getCell r q with
        | some v => containsCI v opt
        | none => false)⟩
    else
      .ok ⟨a.table.cols, a.table.rows.filter (fun r => getCell r q == some opt)⟩
  else .error .unknownQuestion

/-- The value-count pass of `SurveyAnalyzer.get_distribution`: for MC, one
count per stripped semicolon-fragment of the non-null cells (Python dict,
first-occurrence order); otherwise `value_counts()` of the column. -/
def distCounts (a : Analyzer) (df : Table) (q : String) : List (String × Nat) :=
  if a.qTypeOf q = some .MC then
    counts ((dropna df q).flatMap (fun v => (splitCell v).map strip))
  else
    valueCounts (dropna df q)

/-- Embeds `SurveyAnalyzer.get_distribution`: over the subset when one is given,
else over the full table.  The denominator is the count of non-null cells
of the question in the working table for both branches; entries are sorted
by descending percentage. -/
def get_distribution (a : Analyzer) (q : String) (subset : Option Table) :
    Except Err (List (String × ℚ)) :=
  let df := subset.getD a.table
  if q ∈ df.cols then
    if notnaCount df q = 0 then .ok []
    else
      .ok (sortDesc ((distCounts a df q).map (fun p => (p.1, pct (notnaCount df q) p.2))))
  else .error .unknownQuestion

/-- The display-side truncation of `SurveyAnalyzer.display_distribution`:
percentages are rounded to two decimals; with a truthy `top_n` the first
`top_n` entries are kept and, when entries remain, an `Others` entry
holding their rounded percentage sum is appended.  `top_n = 0` is falsy in
Python, hence behaves like `None`. -/
def truncTopN (dist : List (String × ℚ)) (top_n : Option Nat) : List (String × ℚ) :=
  if dist.isEmpty then [("No responses", 0)]
  else
    match top_n with
    | none => dist.map (fun p => (p.1, round2 p.2))
    | some n =>
      if n = 0 then dist.map (fun p => (p.1, round2 p.2))
      else if n < dist.length then
        (dist.take n).map (fun p => (p.1, round2 p.2))
          ++ [("Others", round2 (((dist.drop n).map Prod.snd).sum))]
      else dist.map (fun p => (p.1, round2 p.2))

/-- Embeds `SurveyAnalyzer.display_distribution`. -/
def display_distribution (a : Analyzer) (q : String) (subset : Option Table)
    (top_n : Option Nat) : Except Err (List (String × ℚ)) :=
  (get_distribution a q subset).map (fun dist => truncTopN dist top_n)

end SurveyAnalyzer

namespace SoLib

/-- One row of the schema sheet: question id, question text, declared
type string (`"SC"` or `"MC"`). -/
structure SchemaRow where
  column : String
  question_text : String
  qtype : String
deriving DecidableEq

/-- The loaded workbook of the `so_lib` design: the schema sheet and the
raw-data sheet. -/
structure SOData where
  schema : List SchemaRow
  raw : Table
deriving DecidableEq

/-- Lookup `schema.loc[schema['column'] == qid, 'type'].iloc[0]`, `none` when the
schema has no row for the question (Python raises there). -/
def schemaTypeOf (d : SOData) (qid : String) : Option String :=
  (d.schema.find? (fun r => r.column == qid)).map (fun r => r.qtype)

/-- Lookup `schema.loc[schema['column'] == qid, 'question_text'].iloc[0]`; only
reached after a successful type lookup. -/
def schemaTextOf (d : SOData) (qid : String) : String :=
  ((d.schema.find? (fun r => r.column == qid)).map (fun r => r.question_text)).getD ""

/-- Embeds `so_lib.analysis.subset_respondents`: exact cell equality for a
schema-declared SC question; otherwise non-null case-sensitive containment
of the option in the raw cell (`str.contains(option, na=False)`). -/
def subset_respondents (d : SOData) (question_id opt : String) : Except Err Table :=
  if question_id = "" then .error .invalidArgument
  else if opt = "" then .error .invalidArgument
  else if question_id ∈ d.raw.cols then
    match schemaTypeOf d question_id with
    | none => .error .invalidSchema
    | some ty =>
      if ty = "SC" then
        .ok ⟨d.raw.cols, d.raw.rows.filter (fun r => getCell r question_id == some opt)⟩
      else
        .ok ⟨d.raw.cols, d.raw.rows.filter (fun r =>
          match getCell r question_id with
          | some v => strContains v opt
          | none => false)⟩
  else .error .unknownQuestion

/-- The result record of the two distribution functions. -/
structure DistResult where
  question_id : String
  question_text : String
  distribution : List (String × ℚ)
deriving DecidableEq

/-- Embeds `so_lib.analysis.distribution_sc`: denominator is the count of
non-null cells; entries come from `value_counts()` (descending count). -/
def distribution_sc (d : SOData) (question_id : String) : Except Err DistResult :=
  if question_id = "" then .error .invalidArgument
  else if question_id ∈ d.raw.cols then
    match schemaTypeOf d question_id with
    | none => .error .invalidSchema
    | some ty =>
      if ty = "SC" then
        .ok { question_id
              question_text := schemaTextOf d question_id
              distribution := (valueCounts (dropna d.raw question_id)).map
                (fun p => (p.1, pct (notnaCount d.raw question_id) p.2)) }
      else .error .typeMismatch
  else .error .unknownQuestion

/-- Embeds `so_lib.analysis.distribution_mc`: denominator is the total row count
of the raw table; fragments of the non-null cells are counted as split,
with no trimming and no dropping of empty fragments; entries stay in
first-encountered order. -/
def distribution_mc (d : SOData) (question_id : String) : Except Err DistResult :=
  if question_id = "" then .error .invalidArgument
  else if question_id ∈ d.raw.cols then
    match schemaTypeOf d question_id with
    | none => .error .invalidSchema
    | some ty =>
      if ty = "MC" then
        .ok { question_id
              question_text := schemaTextOf d question_id
              distribution := (counts ((dropna d.raw question_id).flatMap splitCell)).map
                (fun p => (p.1, pct d.raw.rows.length p.2)) }
      else .error .typeMismatch
  else .error .unknownQuestion

/-- Embeds `so_lib.core.list_questions`: the schema rows in schema order. -/
def list_questions (d : SOData) : List SchemaRow := d.schema

/-- Embeds `so_lib.core.search_questions`: rejects an empty query; otherwise the
schema rows whose text or id contains the query case-insensitively, in
schema order. -/
def search_questions (d : SOData) (query : String) : Except Err (List SchemaRow) :=
  if query = "" then .error .invalidArgument
  else .ok (d.schema.filter (fun r =>
    containsCI r.question_text query || containsCI r.column query))

/-- Embeds `so_lib.core.search_options`: distinct non-null values; when any of
them contains the separator, values containing it are split (no trimming,
no dropping of empty fragments) and the result de-duplicated (the Python
`set` is modelled in first-occurrence order); a non-empty query filters
case-insensitively (`if query:` skips the filter for `None` and `""`). -/
def search_options (d : SOData) (question_id : String) (query : Option String) :
    Except Err (List String) :=
  if question_id = "" then .error .invalidArgument
  else if question_id ∈ d.raw.cols then
    let options := firstDedup (dropna d.raw question_id)
    let options :=
      if options.any (fun o => strContains o ";") then
        firstDedup (options.flatMap (fun o => if strContains o ";" then splitCell o else [o]))
      else options
    match query with
    | some qy => if qy = "" then .ok options else .ok (options.filter (fun o => containsCI o qy))
    | none => .ok options
  else .error .unknownQuestion

end SoLib

/-! ## Concrete fixtures and derived instances -/

instance exceptDecEq {ε α : Type} [DecidableEq ε] [DecidableEq α] : DecidableEq (Except ε α) :=
  fun a b =>
  match a, b with
  | .error e, .error f =>
    decidable_of_iff (e = f) ⟨fun h => by rw [h], fun h => by cases h; rfl⟩
  | .error _, .ok _ => isFalse fun h => by cases h
  | .ok _, .error _ => isFalse fun h => by cases h
  | .ok x, .ok y =>
    decidable_of_iff (x = y) ⟨fun h => by rw [h], fun h => by cases h; rfl⟩

/-- Concrete table for the C7 witness: a `ResponseId` column, an MC column
(first non-null value contains a semicolon). -/
def wT7 : Table := ⟨["ResponseId", "Q"], [[("ResponseId", some "1"), ("Q", some "X;Y")]]⟩

/-- Concrete data for the C9 witness. -/
def wD9 : SoLib.SOData := ⟨[⟨"Q", "text", "SC"⟩], ⟨["Q"], []⟩⟩

/-- Concrete analyzer for the C9 witness. -/
def wA9 : SurveyAnalyzer.Analyzer := ⟨⟨["Q"], []⟩⟩

/-- Concrete data for the C10 witness: one MC question, one respondent. -/
def wD10 : SoLib.SOData := ⟨[⟨"Q", "t", "MC"⟩], ⟨["Q"], [[("Q", some "X")]]⟩⟩

/-- Concrete data for the C6 witness: one SC question, two respondents. -/
def wD6 : SoLib.SOData := ⟨[⟨"Q", "t", "SC"⟩], ⟨["Q"], [[("Q", some "A")], [("Q", some "B")]]⟩⟩

/-- Analyzer for the C1 counterexample: an MC question over two rows, one
of them null. -/
def cexA1 : SurveyAnalyzer.Analyzer := ⟨⟨["Q"], [[("Q", some "X;Y")], [("Q", none)]]⟩⟩

/-- Data for the C1 amended witness: an MC question with one answered and
one null row, so the two denominators genuinely differ. -/
def wD1 : SoLib.SOData := ⟨[⟨"Q", "t", "MC"⟩], ⟨["Q"], [[("Q", some "X;Y")], [("Q", none)]]⟩⟩

/-- Data for the C4 counterexample: the first-encountered option "A" has a
lower percentage than the later option "B". -/
def cexD4 : SoLib.SOData := ⟨[⟨"Q", "t", "MC"⟩], ⟨["Q"], [[("Q", some "A;B")], [("Q", some "B")]]⟩⟩

/-- Analyzer for the C4 witness: an SC question with two answers. -/
def wA4 : SurveyAnalyzer.Analyzer := ⟨⟨["Q"], [[("Q", some "A")], [("Q", some "B")]]⟩⟩

/-- Analyzer for the C3 counterexample: a cell "X;" whose split produces an
empty fragment. -/
def cexA3 : SurveyAnalyzer.Analyzer := ⟨⟨["Q"], [[("Q", some "X;")]]⟩⟩

/-- Data for the C3 counterexample: a cell "X; Y" whose second fragment
keeps its leading space in `distribution_mc`. -/
def cexD3 : SoLib.SOData := ⟨[⟨"Q", "t", "MC"⟩], ⟨["Q"], [[("Q", some "X; Y")]]⟩⟩

/-- Analyzer for the C3 witness: an MC cell with whitespace around its
fragments. -/
def wA3 : SurveyAnalyzer.Analyzer := ⟨⟨["Q"], [[("Q", some " X;Y ")]]⟩⟩

/-- Data for the C2 counterexample: an MC cell "Python;Go" queried with the
option "python" in a different case. -/
def cexD2 : SoLib.SOData := ⟨[⟨"Q", "t", "MC"⟩], ⟨["Q"], [[("Q", some "Python;Go")]]⟩⟩

/-- Analyzer for the C2 witness: an SC question over two rows. -/
def wA2 : SurveyAnalyzer.Analyzer := ⟨⟨["C"], [[("C", some "USA")], [("C", some "UK")]]⟩⟩

/-- Analyzer for the C8 counterexample: two question columns. -/
def cexA8 : SurveyAnalyzer.Analyzer := ⟨⟨["Q1", "Q2"], [[("Q1", some "a"), ("Q2", some "b")]]⟩⟩

/-- Data for the C8 witness: the schema of the repository's own test
fixture. -/
def wD8 : SoLib.SOData :=
  ⟨[⟨"Q1", "Test question 1?", "SC"⟩, ⟨"Q2", "Test multiple-choice question?", "MC"⟩],
    ⟨["Q1", "Q2"], []⟩⟩

/-- Analyzer for the C5 counterexample, two-entry distribution. -/
def cexA5 : SurveyAnalyzer.Analyzer := ⟨⟨["Q"], [[("Q", some "A")], [("Q", some "B")]]⟩⟩

/-- Analyzer for the C5 counterexample, three-entry distribution with
non-terminating decimal percentages. -/
def cexB5 : SurveyAnalyzer.Analyzer :=
  ⟨⟨["Q"], [[("Q", some "A")], [("Q", some "B")], [("Q", some "C")]]⟩⟩


/-! ## General helper lemmas -/

theorem mem_firstDedupAux {o : String} {seen l : List String} :
    o ∈ firstDedupAux seen l ↔ o ∈ l ∧ o ∉ seen := by
  induction l generalizing seen with
  | nil => simp [firstDedupAux]
  | cons x xs ih =>
    rw [firstDedupAux]
    by_cases hx : x ∈ seen
    · rw [if_pos hx, ih]
      constructor
      · rintro ⟨h1, h2⟩
        exact ⟨List.mem_cons_of_mem _ h1, h2⟩
      · rintro ⟨h1, h2⟩
        rcases List.mem_cons.mp h1 with rfl | h1
        · exact absurd hx h2
        · exact ⟨h1, h2⟩
    · rw [if_neg hx]
      constructor
      · intro hmem
        rcases List.mem_cons.mp hmem with rfl | hmem
        · exact ⟨List.mem_cons_self _ _, hx⟩
        · obtain ⟨h1, h2⟩ := ih.mp hmem
          exact ⟨List.mem_cons_of_mem _ h1, fun hs => h2 (List.mem_cons_of_mem _ hs)⟩
      · rintro ⟨h1, h2⟩
        rcases List.mem_cons.mp h1 with rfl | h1
        · exact List.mem_cons_self _ _
        · by_cases ho : o = x
          · rw [ho]; exact List.mem_cons_self _ _
          · refine List.mem_cons_of_mem _ (ih.mpr ⟨h1, fun hs => ?_⟩)
            rcases List.mem_cons.mp hs with h | h
            · exact ho h
            · exact h2 h

theorem mem_firstDedup {o : String} {l : List String} : o ∈ firstDedup l ↔ o ∈ l := by
  simp [firstDedup, mem_firstDedupAux]

theorem nodup_firstDedupAux (seen l : List String) : (firstDedupAux seen l).Nodup := by
  induction l generalizing seen with
  | nil => simp [firstDedupAux]
  | cons x xs ih =>
    rw [firstDedupAux]
    by_cases hx : x ∈ seen
    · rw [if_pos hx]; exact ih seen
    · rw [if_neg hx]
      refine List.nodup_cons.mpr ⟨fun hmem => ?_, ih (x :: seen)⟩
      exact (mem_firstDedupAux.mp hmem).2 (List.mem_cons_self x seen)

theorem nodup_firstDedup (l : List String) : (firstDedup l).Nodup := nodup_firstDedupAux [] l

theorem firstDedup_perm_dedup (l : List String) : List.Perm (firstDedup l) l.dedup := by
  refine List.perm_iff_count.mpr fun a => ?_
  by_cases h : a ∈ l
  · rw [List.count_eq_one_of_mem (nodup_firstDedup l) (mem_firstDedup.mpr h),
      List.count_eq_one_of_mem (List.nodup_dedup l) (List.mem_dedup.mpr h)]
  · rw [List.count_eq_zero_of_not_mem (fun hm => h (mem_firstDedup.mp hm)),
      List.count_eq_zero_of_not_mem (fun hm => h (List.mem_dedup.mp hm))]

theorem firstDedup_eq_nil_iff {l : List String} : firstDedup l = [] ↔ l = [] := by
  constructor
  · intro h
    cases l with
    | nil => rfl
    | cons x xs =>
      exact absurd (mem_firstDedup.mpr (List.mem_cons_self x xs)) (by simp [h])
  · rintro rfl; rfl

theorem mem_counts {l : List String} {p : String × Nat} (h : p ∈ counts l) :
    p.1 ∈ l ∧ p.2 = l.count p.1 := by
  simp only [counts, List.mem_map] at h
  obtain ⟨o, ho, rfl⟩ := h
  exact ⟨mem_firstDedup.mp ho, rfl⟩

theorem counts_snd_pos {l : List String} {p : String × Nat} (h : p ∈ counts l) : 0 < p.2 := by
  obtain ⟨h1, h2⟩ := mem_counts h
  rw [h2]
  exact List.count_pos_iff.mpr h1

theorem sum_counts_length (l : List String) : ((counts l).map Prod.snd).sum = l.length := by
  have h1 : (counts l).map Prod.snd = (firstDedup l).map fun o => l.count o := by
    simp [counts, List.map_map, Function.comp]
  have h2 : List.Perm ((firstDedup l).map fun o => l.count o)
      (l.dedup.map fun o => l.count o) := (firstDedup_perm_dedup l).map _
  rw [h1, h2.sum_eq]
  exact List.sum_map_count_dedup_eq_length l

theorem valueCounts_perm (l : List String) : List.Perm (valueCounts l) (counts l) :=
  List.perm_insertionSort cntGE (counts l)

theorem valueCounts_pairwise (l : List String) : (valueCounts l).Pairwise cntGE :=
  List.sorted_insertionSort cntGE (counts l)

theorem sortDesc_perm (l : List (String × ℚ)) : List.Perm (sortDesc l) l :=
  List.perm_insertionSort pctGE l

theorem sortDesc_pairwise (l : List (String × ℚ)) : (sortDesc l).Pairwise pctGE :=
  List.sorted_insertionSort pctGE l

theorem pct_pos {t c : Nat} (ht : 0 < t) (hc : 0 < c) : 0 < pct t c :=
  mul_pos (div_pos (by exact_mod_cast hc) (by exact_mod_cast ht)) (by norm_num)

theorem pct_mono {t c c' : Nat} (h : c ≤ c') : pct t c ≤ pct t c' := by
  unfold pct
  rcases Nat.eq_zero_or_pos t with rfl | ht
  · simp
  · refine mul_le_mul_of_nonneg_right ?_ (by norm_num)
    exact (div_le_div_iff_of_pos_right (by exact_mod_cast ht)).mpr (by exact_mod_cast h)

theorem hasSub_nil_pat (l : List Char) : hasSub [] l = true := by
  cases l <;> simp [hasSub, isPre]

theorem containsCI_empty_query (s : String) : containsCI s "" = true := by
  have h : lowerStr "" = "" := rfl
  rw [containsCI, h, strContains]
  exact hasSub_nil_pat _

theorem head?_dropWhile_false {p : Char → Bool} {l : List Char} {c : Char}
    (h : (l.dropWhile p).head? = some c) : p c = false := by
  have hx := List.head?_dropWhile_not p l
  rw [h] at hx
  simpa using hx

theorem getLast?_of_suffix {α : Type} {l₁ l₂ : List α} (h : l₁ <:+ l₂) (hne : l₁ ≠ []) :
    l₂.getLast? = l₁.getLast? := by
  obtain ⟨pre, rfl⟩ := h
  exact List.getLast?_append_of_ne_nil pre hne

theorem stripList_head {c : Char} {l : List Char} (h : (stripList l).head? = some c) :
    c.isWhitespace = false := by
  rw [stripList, List.head?_reverse] at h
  set d1 := l.dropWhile Char.isWhitespace with hd1
  set r := d1.reverse.dropWhile Char.isWhitespace with hr
  have hne : r ≠ [] := by
    intro hnil
    rw [hnil] at h
    exact Option.noConfusion h
  have hsuf : r <:+ d1.reverse := List.dropWhile_suffix _
  have h2 : d1.reverse.getLast? = some c := by rw [getLast?_of_suffix hsuf hne]; exact h
  rw [List.getLast?_reverse] at h2
  exact head?_dropWhile_false h2

theorem stripList_last {c : Char} {l : List Char} (h : (stripList l).getLast? = some c) :
    c.isWhitespace = false := by
  rw [stripList, List.getLast?_reverse] at h
  exact head?_dropWhile_false h

theorem noEdgeWhite_strip (s : String) : noEdgeWhite (strip s) = true := by
  rw [noEdgeWhite, Bool.and_eq_true]
  have hd : (strip s).data = stripList s.data := rfl
  rw [hd]
  constructor
  · cases hh : (stripList s.data).head? with
    | none => rfl
    | some c => simp [Option.all, stripList_head hh]
  · cases hh : (stripList s.data).getLast? with
    | none => rfl
    | some c => simp [Option.all, stripList_last hh]

/-! ## Inversion lemmas for the embedded operations -/

theorem get_distribution_cases {a : SurveyAnalyzer.Analyzer} {q : String} {sub : Option Table}
    {l : List (String × ℚ)} (h : SurveyAnalyzer.get_distribution a q sub = .ok l) :
    q ∈ (sub.getD a.table).cols ∧
    (notnaCount (sub.getD a.table) q = 0 → l = []) ∧
    (notnaCount (sub.getD a.table) q ≠ 0 →
      l = sortDesc ((SurveyAnalyzer.distCounts a (sub.getD a.table) q).map
        (fun p => (p.1, pct (notnaCount (sub.getD a.table) q) p.2)))) := by
  simp only [SurveyAnalyzer.get_distribution] at h
  split_ifs at h with h1 h2
  · injection h with h
    exact ⟨h1, fun _ => h.symm, fun hne => absurd h2 hne⟩
  · injection h with h
    exact ⟨h1, fun hz => absurd hz h2, fun _ => h.symm⟩

theorem create_subset_cases {a : SurveyAnalyzer.Analyzer} {q opt : String} {t' : Table}
    (h : SurveyAnalyzer.create_subset a q opt = .ok t') :
    q ∈ a.table.cols ∧ t'.cols = a.table.cols ∧
    ((a.qTypeOf q = some .MC ∧ t'.rows = a.table.rows.filter (fun r =>
        match getCell r q with
        | some v => containsCI v opt
        | none => false)) ∨
      (a.qTypeOf q ≠ some .MC ∧
        t'.rows = a.table.rows.filter (fun r => getCell r q == some opt))) := by
  simp only [SurveyAnalyzer.create_subset] at h
  split_ifs at h with h1 h2
  · injection h with h
    exact ⟨h1, by rw [← h], Or.inl ⟨h2, by rw [← h]⟩⟩
  · injection h with h
    exact ⟨h1, by rw [← h], Or.inr ⟨h2, by rw [← h]⟩⟩

theorem subset_respondents_cases {d : SoLib.SOData} {qid opt : String} {t' : Table}
    (h : SoLib.subset_respondents d qid opt = .ok t') :
    qid ∈ d.raw.cols ∧ t'.cols = d.raw.cols ∧
    ((SoLib.schemaTypeOf d qid = some "SC" ∧
        t'.rows = d.raw.rows.filter (fun r => getCell r qid == some opt)) ∨
      (∃ ty, SoLib.schemaTypeOf d qid = some ty ∧ ty ≠ "SC" ∧
        t'.rows = d.raw.rows.filter (fun r =>
          match getCell r qid with
          | some v => strContains v opt
          | none => false))) := by
  simp only [SoLib.subset_respondents] at h
  split_ifs at h with h1 h2 h3
  rcases hty : SoLib.schemaTypeOf d qid with _ | ty
  · simp [hty] at h
  · simp only [hty] at h
    split_ifs at h with h4
    · subst h4
      injection h with h
      exact ⟨h3, by rw [← h], Or.inl ⟨rfl, by rw [← h]⟩⟩
    · injection h with h
      exact ⟨h3, by rw [← h], Or.inr ⟨ty, rfl, h4, by rw [← h]⟩⟩

theorem distribution_sc_ok {d : SoLib.SOData} {qid : String} {r : SoLib.DistResult}
    (h : SoLib.distribution_sc d qid = .ok r) :
    qid ∈ d.raw.cols ∧ SoLib.schemaTypeOf d qid = some "SC" ∧
    r.distribution = (valueCounts (dropna d.raw qid)).map
      (fun p => (p.1, pct (notnaCount d.raw qid) p.2)) := by
  simp only [SoLib.distribution_sc] at h
  split_ifs at h with h1 h2
  rcases hty : SoLib.schemaTypeOf d qid with _ | ty
  · simp [hty] at h
  · simp only [hty] at h
    split_ifs at h with h3
    · subst h3
      injection h with h
      exact ⟨h2, rfl, by rw [← h]⟩

theorem distribution_mc_ok {d : SoLib.SOData} {qid : String} {r : SoLib.DistResult}
    (h : SoLib.distribution_mc d qid = .ok r) :
    qid ∈ d.raw.cols ∧ SoLib.schemaTypeOf d qid = some "MC" ∧
    r.distribution = (counts ((dropna d.raw qid).flatMap splitCell)).map
      (fun p => (p.1, pct d.raw.rows.length p.2)) := by
  simp only [SoLib.distribution_mc] at h
  split_ifs at h with h1 h2
  rcases hty : SoLib.schemaTypeOf d qid with _ | ty
  · simp [hty] at h
  · simp only [hty] at h
    split_ifs at h with h3
    · subst h3
      injection h with h
      exact ⟨h2, rfl, by rw [← h]⟩

theorem search_options_sa_cases {a : SurveyAnalyzer.Analyzer} {q keyword : String}
    {l : List String} (h : SurveyAnalyzer.search_options a q keyword = .ok l) :
    q ∈ a.table.cols ∧
    ((a.qTypeOf q = some .MC ∧ l = sortStrings ((firstDedup
        ((dropna a.table q).flatMap (fun v => (splitCell v).map strip))).filter
          (fun o => containsCI o keyword))) ∨
      (a.qTypeOf q ≠ some .MC ∧ l = sortStrings ((firstDedup (dropna a.table q)).filter
        (fun o => containsCI o keyword)))) := by
  simp only [SurveyAnalyzer.search_options] at h
  split_ifs at h with h1 h2
  · injection h with h
    exact ⟨h1, Or.inl ⟨h2, h.symm⟩⟩
  · injection h with h
    exact ⟨h1, Or.inr ⟨h2, h.symm⟩⟩

/-! ## Percentage-sum lemmas -/

theorem perm_snd_sum {l₁ l₂ : List (String × ℚ)} (h : List.Perm l₁ l₂) :
    (l₁.map Prod.snd).sum = (l₂.map Prod.snd).sum := (h.map Prod.snd).sum_eq

theorem sum_pct_aux (t : ℕ) (c : List (String × Nat)) :
    (c.map (fun p => pct t p.2)).sum = (((c.map Prod.snd).sum : ℕ) : ℚ) / (t : ℚ) * 100 := by
  induction c with
  | nil => simp
  | cons x xs ih =>
    rw [List.map_cons, List.sum_cons, ih, List.map_cons, List.sum_cons, pct]
    push_cast
    ring

theorem sum_pct_map (t : ℕ) (c : List (String × Nat)) :
    ((c.map (fun p => (p.1, pct t p.2))).map Prod.snd).sum
      = (((c.map Prod.snd).sum : ℕ) : ℚ) / (t : ℚ) * 100 := by
  rw [List.map_map]
  exact sum_pct_aux t c

theorem sum_pct_counts {l : List String} (h : l.length ≠ 0) :
    (((counts l).map (fun p => (p.1, pct l.length p.2))).map Prod.snd).sum = 100 := by
  rw [sum_pct_map, sum_counts_length, div_self (by exact_mod_cast h), one_mul]

theorem uniqueVals_length_zero_iff (t : Table) (c : String) :
    (SurveyAnalyzer.uniqueVals t c).length = 0 ↔ notnaCount t c = 0 := by
  rw [SurveyAnalyzer.uniqueVals, notnaCount, List.length_eq_zero, List.length_eq_zero,
    firstDedup_eq_nil_iff]

/-! ## Claim C7 -/

/-- C7: with no schema, the catalog built by `_analyze_structure` excludes the
`ResponseId` column and assigns every question type EMPTY iff its response
count is zero, and otherwise type MC iff the column's first non-null value
contains a semicolon, else SC. -/
theorem C7_catalog_type_inference (t : Table) (c : String) (info : SurveyAnalyzer.QInfo)
    (h : (c, info) ∈ SurveyAnalyzer.analyze_structure t) :
    c ≠ "ResponseId" ∧
    (info.qtype = QType.EMPTY ↔ info.response_count = 0) ∧
    (∀ v, firstNonNull t c = some v →
      (info.qtype = QType.MC ↔ strContains v ";" = true)) ∧
    (∀ v, firstNonNull t c = some v →
      (info.qtype = QType.SC ↔ strContains v ";" = false)) := by
  simp only [SurveyAnalyzer.analyze_structure, List.mem_map] at h
  obtain ⟨c, hc', heq⟩ := h
  obtain ⟨hcols, hne⟩ := List.mem_filter.mp hc'
  cases heq
  refine ⟨by simpa using hne, ?_, ?_, ?_⟩
  · show SurveyAnalyzer.inferType t c = QType.EMPTY ↔ notnaCount t c = 0
    rw [SurveyAnalyzer.inferType]
    by_cases hz : (SurveyAnalyzer.uniqueVals t c).length = 0
    · rw [if_pos hz]
      simp [(uniqueVals_length_zero_iff t c).mp hz]
    · rw [if_neg hz]
      have hnz : notnaCount t c ≠ 0 := fun hh => hz ((uniqueVals_length_zero_iff t c).mpr hh)
      split_ifs with hc <;> simp [hnz]
  · intro v hv
    have hz : (SurveyAnalyzer.uniqueVals t c).length ≠ 0 := by
      intro h0
      have hdrop : dropna t c = [] := by
        rw [← List.length_eq_zero]
        exact (uniqueVals_length_zero_iff t c).mp h0
      rw [firstNonNull, hdrop] at hv
      cases hv
    show SurveyAnalyzer.inferType t c = QType.MC ↔ strContains v ";" = true
    rw [SurveyAnalyzer.inferType, if_neg hz, hv]
    cases hsv : strContains v ";" <;> simp [hsv]
  · intro v hv
    have hz : (SurveyAnalyzer.uniqueVals t c).length ≠ 0 := by
      intro h0
      have hdrop : dropna t c = [] := by
        rw [← List.length_eq_zero]
        exact (uniqueVals_length_zero_iff t c).mp h0
      rw [firstNonNull, hdrop] at hv
      cases hv
    show SurveyAnalyzer.inferType t c = QType.SC ↔ strContains v ";" = false
    rw [SurveyAnalyzer.inferType, if_neg hz, hv]
    cases hsv : strContains v ";" <;> simp [hsv]

/-- Witness for C7 at a concrete table. -/
theorem C7_witness :
    ("Q" : String) ≠ "ResponseId" ∧
    ((SurveyAnalyzer.QInfo.mk QType.MC 1 1).qtype = QType.EMPTY ↔
      (SurveyAnalyzer.QInfo.mk QType.MC 1 1).response_count = 0) ∧
    (∀ v, firstNonNull wT7 "Q" = some v →
      ((SurveyAnalyzer.QInfo.mk QType.MC 1 1).qtype = QType.MC ↔ strContains v ";" = true)) ∧
    (∀ v, firstNonNull wT7 "Q" = some v →
      ((SurveyAnalyzer.QInfo.mk QType.MC 1 1).qtype = QType.SC ↔ strContains v ";" = false)) :=
  C7_catalog_type_inference wT7 "Q" ⟨QType.MC, 1, 1⟩ (by decide)

/-! ## Claim C9 -/

/-- C9: a question id absent from the working table's columns makes each of
the option-search, subset and distribution operations of both
implementations fail with the distinguishable `unknownQuestion` error. -/
theorem C9_unknown_question_errors (d : SoLib.SOData) (a : SurveyAnalyzer.Analyzer)
    (qid q opt kw : String) (qy : Option String) (sub : Option Table)
    (hqid : qid ≠ "") (hopt : opt ≠ "")
    (hd : qid ∉ d.raw.cols) (ha : q ∉ a.table.cols) (hsub : q ∉ (sub.getD a.table).cols) :
    SoLib.search_options d qid qy = .error .unknownQuestion ∧
    SoLib.subset_respondents d qid opt = .error .unknownQuestion ∧
    SoLib.distribution_sc d qid = .error .unknownQuestion ∧
    SoLib.distribution_mc d qid = .error .unknownQuestion ∧
    SurveyAnalyzer.search_options a q kw = .error .unknownQuestion ∧
    SurveyAnalyzer.create_subset a q opt = .error .unknownQuestion ∧
    SurveyAnalyzer.get_distribution a q sub = .error .unknownQuestion := by
  refine ⟨?_, ?_, ?_, ?_, ?_, ?_, ?_⟩
  · simp [SoLib.search_options, hqid, hd]
  · simp [SoLib.subset_respondents, hqid, hopt, hd]
  · simp [SoLib.distribution_sc, hqid, hd]
  · simp [SoLib.distribution_mc, hqid, hd]
  · simp [SurveyAnalyzer.search_options, ha]
  · simp [SurveyAnalyzer.create_subset, ha]
  · simp [SurveyAnalyzer.get_distribution, hsub]

/-- Witness for C9 at a concrete dataset and an unknown question id. -/
theorem C9_witness :
    SoLib.search_options wD9 "Nope" none = .error .unknownQuestion ∧
    SoLib.subset_respondents wD9 "Nope" "x" = .error .unknownQuestion ∧
    SoLib.distribution_sc wD9 "Nope" = .error .unknownQuestion ∧
    SoLib.distribution_mc wD9 "Nope" = .error .unknownQuestion ∧
    SurveyAnalyzer.search_options wA9 "Nope" "x" = .error .unknownQuestion ∧
    SurveyAnalyzer.create_subset wA9 "Nope" "x" = .error .unknownQuestion ∧
    SurveyAnalyzer.get_distribution wA9 "Nope" none = .error .unknownQuestion :=
  C9_unknown_question_errors wD9 wA9 "Nope" "Nope" "x" "x" none none
    (by decide) (by decide) (by decide) (by decide) (by decide)

/-! ## Evaluation helpers for concrete instances -/

theorem distribution_mc_eval {d : SoLib.SOData} {qid : String} {cnt : List (String × Nat)}
    (h0 : qid ≠ "") (h1 : qid ∈ d.raw.cols) (h2 : SoLib.schemaTypeOf d qid = some "MC")
    (h3 : counts ((dropna d.raw qid).flatMap splitCell) = cnt) :
    SoLib.distribution_mc d qid = .ok ⟨qid, SoLib.schemaTextOf d qid,
      cnt.map (fun p => (p.1, pct d.raw.rows.length p.2))⟩ := by
  simp only [SoLib.distribution_mc, h2, h3]
  rw [if_neg h0, if_pos h1, if_pos trivial]

theorem distribution_sc_eval {d : SoLib.SOData} {qid : String} {cnt : List (String × Nat)}
    (h0 : qid ≠ "") (h1 : qid ∈ d.raw.cols) (h2 : SoLib.schemaTypeOf d qid = some "SC")
    (h3 : valueCounts (dropna d.raw qid) = cnt) :
    SoLib.distribution_sc d qid = .ok ⟨qid, SoLib.schemaTextOf d qid,
      cnt.map (fun p => (p.1, pct (notnaCount d.raw qid) p.2))⟩ := by
  simp only [SoLib.distribution_sc, h2, h3]
  rw [if_neg h0, if_pos h1, if_pos trivial]

theorem get_distribution_eval {a : SurveyAnalyzer.Analyzer} {q : String} {sub : Option Table}
    {cnt : List (String × Nat)} (h1 : q ∈ (sub.getD a.table).cols)
    (h0 : notnaCount (sub.getD a.table) q ≠ 0)
    (h2 : SurveyAnalyzer.distCounts a (sub.getD a.table) q = cnt) :
    SurveyAnalyzer.get_distribution a q sub
      = .ok (sortDesc (cnt.map (fun p => (p.1, pct (notnaCount (sub.getD a.table) q) p.2)))) := by
  simp only [SurveyAnalyzer.get_distribution, h2]
  rw [if_pos h1, if_neg h0]

/-! ## Claim C10 -/

/-- C10: every entry of a computed distribution has a strictly positive
percentage, and its option comes from a non-null cell of the working row
set (as a stripped fragment for an MC question of `get_distribution`, as a
raw fragment for `distribution_mc`, as a whole cell value otherwise);
no zero-count entry is emitted. -/
theorem C10_distribution_entries_positive :
    (∀ (a : SurveyAnalyzer.Analyzer) (q : String) (sub : Option Table) (l : List (String × ℚ)),
      SurveyAnalyzer.get_distribution a q sub = .ok l → ∀ p ∈ l, 0 < p.2 ∧
        (a.qTypeOf q = some QType.MC →
          p.1 ∈ (dropna (sub.getD a.table) q).flatMap (fun v => (splitCell v).map strip)) ∧
        (a.qTypeOf q ≠ some QType.MC → p.1 ∈ dropna (sub.getD a.table) q)) ∧
    (∀ (d : SoLib.SOData) (qid : String) (r : SoLib.DistResult),
      SoLib.distribution_mc d qid = .ok r → ∀ p ∈ r.distribution, 0 < p.2 ∧
        p.1 ∈ (dropna d.raw qid).flatMap splitCell) := by
  constructor
  · intro a q sub l h p hp
    obtain ⟨hc, hzero, hnz⟩ := get_distribution_cases h
    by_cases h0 : notnaCount (sub.getD a.table) q = 0
    · rw [hzero h0] at hp
      cases hp
    · rw [hnz h0] at hp
      have hp2 := (sortDesc_perm _).mem_iff.mp hp
      obtain ⟨pc, hpc, rfl⟩ := List.mem_map.mp hp2
      rw [SurveyAnalyzer.distCounts] at hpc
      by_cases hmc : a.qTypeOf q = some QType.MC
      · rw [if_pos hmc] at hpc
        obtain ⟨hmem, _⟩ := mem_counts hpc
        exact ⟨pct_pos (Nat.pos_of_ne_zero h0) (counts_snd_pos hpc),
          fun _ => hmem, fun hn => absurd hmc hn⟩
      · rw [if_neg hmc] at hpc
        have hpc2 := (valueCounts_perm _).mem_iff.mp hpc
        obtain ⟨hmem, _⟩ := mem_counts hpc2
        exact ⟨pct_pos (Nat.pos_of_ne_zero h0) (counts_snd_pos hpc2),
          fun hmc2 => absurd hmc2 hmc, fun _ => hmem⟩
  · intro d qid r h p hp
    obtain ⟨hc, hty, hdist⟩ := distribution_mc_ok h
    rw [hdist] at hp
    obtain ⟨pc, hpc, rfl⟩ := List.mem_map.mp hp
    obtain ⟨hmem, _⟩ := mem_counts hpc
    have hrows : 0 < d.raw.rows.length := by
      obtain ⟨v, hv, _⟩ := List.mem_flatMap.mp hmem
      have h1 : 0 < (dropna d.raw qid).length :=
        List.length_pos.mpr (List.ne_nil_of_mem hv)
      have h2 : (dropna d.raw qid).length ≤ d.raw.rows.length := by
        rw [dropna, colValues]
        exact le_trans (List.length_filterMap_le _ _) (by rw [List.length_map])
      exact lt_of_lt_of_le h1 h2
    exact ⟨pct_pos hrows (counts_snd_pos hpc), hmem⟩

/-- Witness for C10 at a concrete dataset: the single entry has positive
percentage and its option comes from a cell fragment. -/
theorem C10_witness :
    0 < (("X", (100 : ℚ)) : String × ℚ).2 ∧
    (("X", (100 : ℚ)) : String × ℚ).1 ∈ (dropna wD10.raw "Q").flatMap splitCell := by
  have h3 : counts ((dropna wD10.raw "Q").flatMap splitCell) = [("X", 1)] := by decide
  have hdm : SoLib.distribution_mc wD10 "Q" = .ok ⟨"Q", "t", [("X", 100)]⟩ := by
    have he := @distribution_mc_eval wD10 "Q" _
      (by decide) (by decide) (by decide) h3
    rw [he]
    have : SoLib.schemaTextOf wD10 "Q" = "t" := by decide
    rw [this]
    norm_num [pct, wD10]
  exact C10_distribution_entries_positive.2 wD10 "Q" ⟨"Q", "t", [("X", 100)]⟩ hdm
    ("X", 100) (List.mem_singleton.mpr rfl)

/-! ## Claim C6 -/

/-- C6: for an SC question with at least one non-null response, the
percentages of the untruncated distribution sum to exactly 100, both for
`distribution_sc` and for the non-MC branch of `get_distribution`
(exact rational arithmetic idealizes the floating-point epsilon away). -/
theorem C6_sc_percentages_sum_100 :
    (∀ (d : SoLib.SOData) (qid : String) (r : SoLib.DistResult),
      SoLib.distribution_sc d qid = .ok r → notnaCount d.raw qid ≠ 0 →
        (r.distribution.map Prod.snd).sum = 100) ∧
    (∀ (a : SurveyAnalyzer.Analyzer) (q : String) (sub : Option Table) (l : List (String × ℚ)),
      SurveyAnalyzer.get_distribution a q sub = .ok l → a.qTypeOf q ≠ some QType.MC →
        notnaCount (sub.getD a.table) q ≠ 0 → (l.map Prod.snd).sum = 100) := by
  constructor
  · intro d qid r h hnz
    obtain ⟨_, _, hdist⟩ := distribution_sc_ok h
    rw [hdist]
    have hperm := (valueCounts_perm (dropna d.raw qid)).map
      (fun p => (p.1, pct (notnaCount d.raw qid) p.2))
    rw [perm_snd_sum hperm]
    exact sum_pct_counts hnz
  · intro a q sub l h hsc hnz
    obtain ⟨_, _, hlnz⟩ := get_distribution_cases h
    rw [hlnz hnz, perm_snd_sum (sortDesc_perm _), SurveyAnalyzer.distCounts, if_neg hsc]
    have hperm := (valueCounts_perm (dropna (sub.getD a.table) q)).map
      (fun p => (p.1, pct (notnaCount (sub.getD a.table) q) p.2))
    rw [perm_snd_sum hperm]
    exact sum_pct_counts hnz

/-- Witness for C6: the concrete SC distribution sums to 100. -/
theorem C6_witness :
    ((SoLib.DistResult.mk "Q" "t" [("A", 50), ("B", 50)]).distribution.map Prod.snd).sum
      = 100 := by
  have h3 : valueCounts (dropna wD6.raw "Q") = [("A", 1), ("B", 1)] := by decide
  have hds : SoLib.distribution_sc wD6 "Q" = .ok ⟨"Q", "t", [("A", 50), ("B", 50)]⟩ := by
    have he := @distribution_sc_eval wD6 "Q" _
      (by decide) (by decide) (by decide) h3
    rw [he, show SoLib.schemaTextOf wD6 "Q" = "t" from by decide]
    simp only [show notnaCount wD6.raw "Q" = 2 from by decide]
    norm_num [pct]
  exact C6_sc_percentages_sum_100.1 wD6 "Q" ⟨"Q", "t", [("A", 50), ("B", 50)]⟩ hds (by decide)

/-! ## Claim C1 -/

/-- C1 counterexample: for this MC question over a row set of 2 rows (one
null), the claim prescribes denominator 2 (the total row count including
null rows), hence percentage 100*1/2 = 50 for option "X"; but
`SurveyAnalyzer.get_distribution` divides by the non-null count 1 and
yields 100. -/
theorem C1_counterexample :
    SurveyAnalyzer.Analyzer.qTypeOf cexA1 "Q" = some QType.MC ∧
    cexA1.table.rows.length = 2 ∧
    SurveyAnalyzer.get_distribution cexA1 "Q" none = .ok [("X", 100), ("Y", 100)] ∧
    (100 : ℚ) ≠ 100 * 1 / 2 := by
  refine ⟨by decide, by decide, ?_, by norm_num⟩
  have h2 : SurveyAnalyzer.distCounts cexA1 ((none : Option Table).getD cexA1.table) "Q"
      = [("X", 1), ("Y", 1)] := by decide
  have he := @get_distribution_eval cexA1 "Q" none _
    (by decide) (by decide) h2
  rw [he]
  simp only [show notnaCount ((none : Option Table).getD cexA1.table) "Q" = 1 from by decide]
  norm_num [pct, sortDesc, List.insertionSort, List.orderedInsert, pctGE]

/-- C1 amended: the denominators of the two implementations differ.
`distribution_mc` divides each option count by the total row count of the
raw table; `SurveyAnalyzer.get_distribution` divides by the count of
non-null cells of the question in the working row set in both its MC and
its non-MC branch; each percentage equals `100 * count / denominator`. -/
theorem C1_amended_denominators :
    (∀ (d : SoLib.SOData) (qid : String) (r : SoLib.DistResult),
      SoLib.distribution_mc d qid = .ok r → ∀ p ∈ r.distribution,
        p.2 = pct d.raw.rows.length (((dropna d.raw qid).flatMap splitCell).count p.1)) ∧
    (∀ (a : SurveyAnalyzer.Analyzer) (q : String) (sub : Option Table) (l : List (String × ℚ)),
      SurveyAnalyzer.get_distribution a q sub = .ok l → ∀ p ∈ l,
        (a.qTypeOf q = some QType.MC →
          p.2 = pct (notnaCount (sub.getD a.table) q)
            (((dropna (sub.getD a.table) q).flatMap
              (fun v => (splitCell v).map strip)).count p.1)) ∧
        (a.qTypeOf q ≠ some QType.MC →
          p.2 = pct (notnaCount (sub.getD a.table) q)
            ((dropna (sub.getD a.table) q).count p.1))) := by
  constructor
  · intro d qid r h p hp
    obtain ⟨_, _, hdist⟩ := distribution_mc_ok h
    rw [hdist] at hp
    obtain ⟨pc, hpc, rfl⟩ := List.mem_map.mp hp
    obtain ⟨_, hcnt⟩ := mem_counts hpc
    simp only [hcnt]
  · intro a q sub l h p hp
    obtain ⟨hc, hzero, hnz⟩ := get_distribution_cases h
    by_cases h0 : notnaCount (sub.getD a.table) q = 0
    · rw [hzero h0] at hp
      cases hp
    · rw [hnz h0] at hp
      have hp2 := (sortDesc_perm _).mem_iff.mp hp
      obtain ⟨pc, hpc, rfl⟩ := List.mem_map.mp hp2
      rw [SurveyAnalyzer.distCounts] at hpc
      by_cases hmc : a.qTypeOf q = some QType.MC
      · rw [if_pos hmc] at hpc
        obtain ⟨_, hcnt⟩ := mem_counts hpc
        exact ⟨fun _ => by simp only [hcnt], fun hn => absurd hmc hn⟩
      · rw [if_neg hmc] at hpc
        have hpc2 := (valueCounts_perm _).mem_iff.mp hpc
        obtain ⟨_, hcnt⟩ := mem_counts hpc2
        exact ⟨fun hmc2 => absurd hmc2 hmc, fun _ => by simp only [hcnt]⟩

/-- Witness for the amended C1: in `distribution_mc` the "X" percentage is
100 * 1 / 2 = 50 (denominator = total row count 2, not non-null count 1). -/
theorem C1_amended_witness :
    (("X", (50 : ℚ)) : String × ℚ).2
      = pct wD1.raw.rows.length (((dropna wD1.raw "Q").flatMap splitCell).count "X") := by
  have h3 : counts ((dropna wD1.raw "Q").flatMap splitCell) = [("X", 1), ("Y", 1)] := by decide
  have hdm : SoLib.distribution_mc wD1 "Q" = .ok ⟨"Q", "t", [("X", 50), ("Y", 50)]⟩ := by
    have he := @distribution_mc_eval wD1 "Q" _
      (by decide) (by decide) (by decide) h3
    rw [he, show SoLib.schemaTextOf wD1 "Q" = "t" from by decide]
    simp only [show wD1.raw.rows.length = 2 from rfl]
    norm_num [pct]
  exact C1_amended_denominators.1 wD1 "Q" ⟨"Q", "t", [("X", 50), ("Y", 50)]⟩ hdm
    ("X", 50) (by simp)

/-! ## Claim C4 -/

/-- C4 counterexample: `distribution_mc` returns its entries in
first-encountered order, here [("A", 50), ("B", 100)], which is not sorted
by descending percentage. -/
theorem C4_counterexample :
    SoLib.distribution_mc cexD4 "Q" = .ok ⟨"Q", "t", [("A", 50), ("B", 100)]⟩ ∧
    ¬ (([(("A" : String), (50 : ℚ)), ("B", 100)]).Pairwise pctGE) := by
  constructor
  · have h3 : counts ((dropna cexD4.raw "Q").flatMap splitCell) = [("A", 1), ("B", 2)] := by
      decide
    have he := @distribution_mc_eval cexD4 "Q" _
      (by decide) (by decide) (by decide) h3
    rw [he, show SoLib.schemaTextOf cexD4 "Q" = "t" from by decide]
    simp only [show cexD4.raw.rows.length = 2 from rfl]
    norm_num [pct]
  · norm_num [pctGE, List.pairwise_cons]

/-- C4 amended: the sequences returned by `SurveyAnalyzer.get_distribution`
and by `distribution_sc` are sorted by descending percentage; the sequence
returned by `distribution_mc` is in first-encountered option order and is
not sorted in general (see the counterexample). -/
theorem C4_amended_sorted :
    (∀ (a : SurveyAnalyzer.Analyzer) (q : String) (sub : Option Table) (l : List (String × ℚ)),
      SurveyAnalyzer.get_distribution a q sub = .ok l → l.Pairwise pctGE) ∧
    (∀ (d : SoLib.SOData) (qid : String) (r : SoLib.DistResult),
      SoLib.distribution_sc d qid = .ok r → r.distribution.Pairwise pctGE) := by
  constructor
  · intro a q sub l h
    obtain ⟨_, hzero, hnz⟩ := get_distribution_cases h
    by_cases h0 : notnaCount (sub.getD a.table) q = 0
    · rw [hzero h0]
      exact List.Pairwise.nil
    · rw [hnz h0]
      exact sortDesc_pairwise _
  · intro d qid r h
    obtain ⟨_, _, hdist⟩ := distribution_sc_ok h
    rw [hdist]
    exact (valueCounts_pairwise _).map _ (fun a b hab => pct_mono hab)

/-- Witness for the amended C4: the concrete `get_distribution` output is
descending. -/
theorem C4_amended_witness :
    ([(("A" : String), (50 : ℚ)), ("B", 50)]).Pairwise pctGE := by
  have h2 : SurveyAnalyzer.distCounts wA4 ((none : Option Table).getD wA4.table) "Q"
      = [("A", 1), ("B", 1)] := by decide
  have he := @get_distribution_eval wA4 "Q" none _
    (by decide) (by decide) h2
  have hg : SurveyAnalyzer.get_distribution wA4 "Q" none = .ok [("A", 50), ("B", 50)] := by
    rw [he]
    simp only [show notnaCount ((none : Option Table).getD wA4.table) "Q" = 2 from by decide]
    norm_num [pct, sortDesc, List.insertionSort, List.orderedInsert, pctGE]
  exact C4_amended_sorted.1 wA4 "Q" none [("A", 50), ("B", 50)] hg

/-! ## Claim C3 -/

/-- C3 counterexample: `SurveyAnalyzer.get_distribution` emits the empty
string as an option (empty fragments are not dropped), and
`distribution_mc` emits the untrimmed fragment " Y" (fragments are not
stripped in the so_lib paths). -/
theorem C3_counterexample :
    SurveyAnalyzer.get_distribution cexA3 "Q" none = .ok [("X", 100), ("", 100)] ∧
    SoLib.distribution_mc cexD3 "Q" = .ok ⟨"Q", "t", [("X", 100), (" Y", 100)]⟩ ∧
    strip " Y" = "Y" ∧ (" Y" : String) ≠ "Y" := by
  refine ⟨?_, ?_, by decide, by decide⟩
  · have h2 : SurveyAnalyzer.distCounts cexA3 ((none : Option Table).getD cexA3.table) "Q"
        = [("X", 1), ("", 1)] := by decide
    have he := @get_distribution_eval cexA3 "Q" none _
      (by decide) (by decide) h2
    rw [he]
    simp only [show notnaCount ((none : Option Table).getD cexA3.table) "Q" = 1 from by decide]
    norm_num [pct, sortDesc, List.insertionSort, List.orderedInsert, pctGE]
  · have h3 : counts ((dropna cexD3.raw "Q").flatMap splitCell) = [("X", 1), (" Y", 1)] := by
      decide
    have he := @distribution_mc_eval cexD3 "Q" _
      (by decide) (by decide) (by decide) h3
    rw [he, show SoLib.schemaTextOf cexD3 "Q" = "t" from by decide]
    simp only [show cexD3.raw.rows.length = 1 from rfl]
    norm_num [pct]

/-- C3 amended: in the `SurveyAnalyzer` MC paths (`get_distribution` and
`search_options`) every produced option string is trimmed of surrounding
whitespace after splitting on the separator, but empty fragments are kept;
the so_lib paths (`distribution_mc`, `core.search_options`) split without
trimming and without dropping empty fragments (see the counterexample). -/
theorem C3_amended_trimming :
    (∀ (a : SurveyAnalyzer.Analyzer) (q : String) (sub : Option Table) (l : List (String × ℚ)),
      SurveyAnalyzer.get_distribution a q sub = .ok l → a.qTypeOf q = some QType.MC →
        ∀ p ∈ l, noEdgeWhite p.1 = true) ∧
    (∀ (a : SurveyAnalyzer.Analyzer) (q kw : String) (l : List String),
      SurveyAnalyzer.search_options a q kw = .ok l → a.qTypeOf q = some QType.MC →
        ∀ o ∈ l, noEdgeWhite o = true) := by
  constructor
  · intro a q sub l h hmc p hp
    obtain ⟨_, hzero, hnz⟩ := get_distribution_cases h
    by_cases h0 : notnaCount (sub.getD a.table) q = 0
    · rw [hzero h0] at hp
      cases hp
    · rw [hnz h0] at hp
      have hp2 := (sortDesc_perm _).mem_iff.mp hp
      obtain ⟨pc, hpc, rfl⟩ := List.mem_map.mp hp2
      rw [SurveyAnalyzer.distCounts, if_pos hmc] at hpc
      obtain ⟨hmem, _⟩ := mem_counts hpc
      obtain ⟨v, _, hv⟩ := List.mem_flatMap.mp hmem
      obtain ⟨frag, _, hfrag⟩ := List.mem_map.mp hv
      rw [← hfrag]
      exact noEdgeWhite_strip frag
  · intro a q kw l h hmc o ho
    obtain ⟨_, hcase⟩ := search_options_sa_cases h
    rcases hcase with ⟨_, hl⟩ | ⟨hn, _⟩
    · rw [hl] at ho
      have ho2 := (List.perm_insertionSort strLE _).mem_iff.mp ho
      have ho3 := List.mem_filter.mp ho2
      have ho4 := mem_firstDedup.mp ho3.1
      obtain ⟨v, _, hv⟩ := List.mem_flatMap.mp ho4
      obtain ⟨frag, _, hfrag⟩ := List.mem_map.mp hv
      rw [← hfrag]
      exact noEdgeWhite_strip frag
    · exact absurd hmc hn

/-- Witness for the amended C3: the options of the concrete MC distribution
carry no surrounding whitespace. -/
theorem C3_amended_witness : noEdgeWhite "X" = true := by
  have h2 : SurveyAnalyzer.distCounts wA3 ((none : Option Table).getD wA3.table) "Q"
      = [("X", 1), ("Y", 1)] := by decide
  have he := @get_distribution_eval wA3 "Q" none _
    (by decide) (by decide) h2
  have hg : SurveyAnalyzer.get_distribution wA3 "Q" none = .ok [("X", 100), ("Y", 100)] := by
    rw [he]
    simp only [show notnaCount ((none : Option Table).getD wA3.table) "Q" = 1 from by decide]
    norm_num [pct, sortDesc, List.insertionSort, List.orderedInsert, pctGE]
  exact C3_amended_trimming.1 wA3 "Q" none [("X", 100), ("Y", 100)] hg (by decide)
    ("X", 100) (by simp)

/-! ## Claim C2 -/

/-- C2 counterexample: "python" is a case-insensitive substring of the MC
cell "Python;Go", so under the claim the row matches; but
`subset_respondents` tests containment case-sensitively and returns no
rows. -/
theorem C2_counterexample :
    containsCI "Python;Go" "python" = true ∧
    strContains "Python;Go" "python" = false ∧
    SoLib.subset_respondents cexD2 "Q" "python" = .ok ⟨["Q"], []⟩ := by
  refine ⟨by decide, by decide, by decide⟩

/-- C2 amended: both subset operations keep rows in original table order
with all columns; for a question not typed MC (resp. typed SC) a row
matches by exact cell equality; for an MC question
`SurveyAnalyzer.create_subset` matches by case-insensitive substring
containment in the raw unsplit cell while `subset_respondents` matches by
case-sensitive containment (see the counterexample). -/
theorem C2_amended_subsets :
    (∀ (a : SurveyAnalyzer.Analyzer) (q opt : String) (t' : Table),
      SurveyAnalyzer.create_subset a q opt = .ok t' →
        t'.cols = a.table.cols ∧ List.Sublist t'.rows a.table.rows ∧
        ((a.qTypeOf q = some QType.MC ∧ t'.rows = a.table.rows.filter (fun r =>
            match getCell r q with
            | some v => containsCI v opt
            | none => false)) ∨
          (a.qTypeOf q ≠ some QType.MC ∧
            t'.rows = a.table.rows.filter (fun r => getCell r q == some opt)))) ∧
    (∀ (d : SoLib.SOData) (qid opt : String) (t' : Table),
      SoLib.subset_respondents d qid opt = .ok t' →
        t'.cols = d.raw.cols ∧ List.Sublist t'.rows d.raw.rows ∧
        ((SoLib.schemaTypeOf d qid = some "SC" ∧
            t'.rows = d.raw.rows.filter (fun r => getCell r qid == some opt)) ∨
          (∃ ty, SoLib.schemaTypeOf d qid = some ty ∧ ty ≠ "SC" ∧
            t'.rows = d.raw.rows.filter (fun r =>
              match getCell r qid with
              | some v => strContains v opt
              | none => false)))) := by
  constructor
  · intro a q opt t' h
    obtain ⟨_, hcols, hcase⟩ := create_subset_cases h
    refine ⟨hcols, ?_, hcase⟩
    rcases hcase with ⟨_, hrows⟩ | ⟨_, hrows⟩ <;> rw [hrows] <;>
      exact List.filter_sublist _
  · intro d qid opt t' h
    obtain ⟨_, hcols, hcase⟩ := subset_respondents_cases h
    refine ⟨hcols, ?_, hcase⟩
    rcases hcase with ⟨_, hrows⟩ | ⟨ty, _, _, hrows⟩ <;> rw [hrows] <;>
      exact List.filter_sublist _

/-- Witness for the amended C2 at a concrete SC subset. -/
theorem C2_amended_witness :
    (Table.mk ["C"] [[("C", some "USA")]]).cols = wA2.table.cols ∧
    List.Sublist (Table.mk ["C"] [[("C", some "USA")]]).rows wA2.table.rows ∧
    ((SurveyAnalyzer.Analyzer.qTypeOf wA2 "C" = some QType.MC ∧
        (Table.mk ["C"] [[("C", some "USA")]]).rows = wA2.table.rows.filter (fun r =>
          match getCell r "C" with
          | some v => containsCI v "USA"
          | none => false)) ∨
      (SurveyAnalyzer.Analyzer.qTypeOf wA2 "C" ≠ some QType.MC ∧
        (Table.mk ["C"] [[("C", some "USA")]]).rows
          = wA2.table.rows.filter (fun r => getCell r "C" == some "USA"))) :=
  C2_amended_subsets.1 wA2 "C" "USA" ⟨["C"], [[("C", some "USA")]]⟩ (by decide)

/-! ## Claim C8 -/

/-- C8 counterexample: `SurveyAnalyzer.search_questions` cannot fail; on an
empty query it returns every question id instead of an InvalidArgument
error. -/
theorem C8_counterexample :
    SurveyAnalyzer.search_questions cexA8 "" = ["Q1", "Q2"] ∧
    (["Q1", "Q2"] : List String) ≠ [] := ⟨by decide, by decide⟩

/-- C8 amended: `so_lib.core.search_questions` fails with InvalidArgument
on an empty query and for a non-empty query returns exactly the schema
rows whose text or id contains the query case-insensitively, in catalog
order, possibly empty and never an error;
`SurveyAnalyzer.search_questions` never fails: it returns exactly the
catalog ids containing the keyword case-insensitively in catalog order,
and an empty keyword returns all ids. -/
theorem C8_amended_search_questions :
    (∀ (d : SoLib.SOData), SoLib.search_questions d "" = .error .invalidArgument) ∧
    (∀ (d : SoLib.SOData) (qy : String), qy ≠ "" →
      SoLib.search_questions d qy = .ok (d.schema.filter (fun r =>
        containsCI r.question_text qy || containsCI r.column qy)) ∧
      List.Sublist (d.schema.filter (fun r =>
        containsCI r.question_text qy || containsCI r.column qy)) d.schema) ∧
    (∀ (a : SurveyAnalyzer.Analyzer) (kw : String),
      List.Sublist (SurveyAnalyzer.search_questions a kw)
        ((SurveyAnalyzer.analyze_structure a.table).map Prod.fst) ∧
      (∀ x, x ∈ SurveyAnalyzer.search_questions a kw ↔
        x ∈ (SurveyAnalyzer.analyze_structure a.table).map Prod.fst ∧
          containsCI x kw = true)) ∧
    (∀ (a : SurveyAnalyzer.Analyzer),
      SurveyAnalyzer.search_questions a ""
        = (SurveyAnalyzer.analyze_structure a.table).map Prod.fst) := by
  refine ⟨?_, ?_, ?_, ?_⟩
  · intro d
    simp [SoLib.search_questions]
  · intro d qy hqy
    refine ⟨?_, List.filter_sublist _⟩
    rw [SoLib.search_questions, if_neg hqy]
  · intro a kw
    refine ⟨List.filter_sublist _, fun x => ?_⟩
    rw [SurveyAnalyzer.search_questions]
    exact List.mem_filter
  · intro a
    rw [SurveyAnalyzer.search_questions]
    exact List.filter_eq_self.mpr (fun x _ => containsCI_empty_query x)

/-- Witness for the amended C8: the query "multiple" selects exactly the
matching schema row, and the result is a sublist of the schema. -/
theorem C8_amended_witness :
    SoLib.search_questions wD8 "multiple" = .ok (wD8.schema.filter (fun r =>
      containsCI r.question_text "multiple" || containsCI r.column "multiple")) ∧
    List.Sublist (wD8.schema.filter (fun r =>
      containsCI r.question_text "multiple" || containsCI r.column "multiple")) wD8.schema :=
  C8_amended_search_questions.2.1 wD8 "multiple" (by decide)

/-! ## Claim C5 -/

theorem round2_eval {x : ℚ} {n : ℤ} (h1 : ⌊x * 100⌋ = n) (h2 : x * 100 - (n : ℚ) < 1 / 2) :
    round2 x = (n : ℚ) / 100 := by
  rw [round2, roundHalfEven, h1, if_pos h2]

theorem round2_50 : round2 50 = 50 := by
  have h1 : ⌊(50 : ℚ) * 100⌋ = 5000 := by
    rw [show (50 : ℚ) * 100 = ((5000 : ℤ) : ℚ) by norm_num]
    exact Int.floor_intCast 5000
  rw [round2_eval h1 (by norm_num)]
  norm_num

theorem round2_third : round2 (100 / 3) = 3333 / 100 := by
  have h1 : ⌊(100 : ℚ) / 3 * 100⌋ = 3333 := by
    rw [Int.floor_eq_iff]
    constructor <;> norm_num
  rw [round2_eval h1 (by norm_num)]
  norm_num

/-- C5 counterexample: (i) `top_n = 0` is falsy in Python, so
`display_distribution` returns the full 2-entry distribution instead of
the 0 + 1 = 1 entries the claim prescribes; (ii) the displayed entries are
rounded to two decimals, so for a distribution of thirds neither the kept
entries nor the Others entry equal the exact distribution values the
claim prescribes. -/
theorem C5_counterexample :
    SurveyAnalyzer.get_distribution cexA5 "Q" none = .ok [("A", 50), ("B", 50)] ∧
    SurveyAnalyzer.display_distribution cexA5 "Q" none (some 0) = .ok [("A", 50), ("B", 50)] ∧
    (2 : Nat) ≠ 0 + 1 ∧
    SurveyAnalyzer.get_distribution cexB5 "Q" none
      = .ok [("A", 100 / 3), ("B", 100 / 3), ("C", 100 / 3)] ∧
    SurveyAnalyzer.display_distribution cexB5 "Q" none (some 2)
      = .ok [("A", 3333 / 100), ("B", 3333 / 100), ("Others", 3333 / 100)] ∧
    (100 : ℚ) / 3 ≠ 3333 / 100 := by
  have hgA : SurveyAnalyzer.get_distribution cexA5 "Q" none = .ok [("A", 50), ("B", 50)] := by
    have h2 : SurveyAnalyzer.distCounts cexA5 ((none : Option Table).getD cexA5.table) "Q"
        = [("A", 1), ("B", 1)] := by decide
    have he := @get_distribution_eval cexA5 "Q" none _
      (by decide) (by decide) h2
    rw [he]
    simp only [show notnaCount ((none : Option Table).getD cexA5.table) "Q" = 2 from by decide]
    norm_num [pct, sortDesc, List.insertionSort, List.orderedInsert, pctGE]
  have hgB : SurveyAnalyzer.get_distribution cexB5 "Q" none
      = .ok [("A", 100 / 3), ("B", 100 / 3), ("C", 100 / 3)] := by
    have h2 : SurveyAnalyzer.distCounts cexB5 ((none : Option Table).getD cexB5.table) "Q"
        = [("A", 1), ("B", 1), ("C", 1)] := by decide
    have he := @get_distribution_eval cexB5 "Q" none _
      (by decide) (by decide) h2
    rw [he]
    simp only [show notnaCount ((none : Option Table).getD cexB5.table) "Q" = 3 from by decide]
    norm_num [pct, sortDesc, List.insertionSort, List.orderedInsert, pctGE]
  refine ⟨hgA, ?_, by decide, hgB, ?_, by norm_num⟩
  · rw [SurveyAnalyzer.display_distribution, hgA]
    show Except.ok (SurveyAnalyzer.truncTopN [("A", 50), ("B", 50)] (some 0)) = _
    simp [SurveyAnalyzer.truncTopN, round2_50]
  · rw [SurveyAnalyzer.display_distribution, hgB]
    show Except.ok (SurveyAnalyzer.truncTopN
      [("A", 100 / 3), ("B", 100 / 3), ("C", 100 / 3)] (some 2)) = _
    simp [SurveyAnalyzer.truncTopN, round2_third]

/-- C5 amended: `display_distribution` applies `truncTopN` to the computed
distribution; for a positive `top_n` smaller than the number of entries
the result is exactly the first `top_n` entries with display-rounded
percentages followed by one synthetic entry `("Others", round2(sum of the
remaining percentages))`, `top_n + 1` entries in total; when `top_n` is
null or 0 (falsy in Python) the nonempty distribution is returned whole,
with display rounding only. -/
theorem C5_amended_truncation :
    (∀ (a : SurveyAnalyzer.Analyzer) (q : String) (sub : Option Table) (tn : Option Nat)
      (dist : List (String × ℚ)), SurveyAnalyzer.get_distribution a q sub = .ok dist →
        SurveyAnalyzer.display_distribution a q sub tn
          = .ok (SurveyAnalyzer.truncTopN dist tn)) ∧
    (∀ (dist : List (String × ℚ)) (n : Nat), dist ≠ [] → n ≠ 0 → n < dist.length →
      SurveyAnalyzer.truncTopN dist (some n)
        = (dist.take n).map (fun p => (p.1, round2 p.2))
          ++ [("Others", round2 (((dist.drop n).map Prod.snd).sum))] ∧
      (SurveyAnalyzer.truncTopN dist (some n)).length = n + 1) ∧
    (∀ (dist : List (String × ℚ)), dist ≠ [] →
      SurveyAnalyzer.truncTopN dist none = dist.map (fun p => (p.1, round2 p.2)) ∧
      SurveyAnalyzer.truncTopN dist (some 0) = dist.map (fun p => (p.1, round2 p.2))) := by
  refine ⟨?_, ?_, ?_⟩
  · intro a q sub tn dist h
    rw [SurveyAnalyzer.display_distribution, h]
    rfl
  · intro dist n hne h0 hlt
    have hE : dist.isEmpty = false := by
      cases dist with
      | nil => exact absurd rfl hne
      | cons x xs => rfl
    have heq : SurveyAnalyzer.truncTopN dist (some n)
        = (dist.take n).map (fun p => (p.1, round2 p.2))
          ++ [("Others", round2 (((dist.drop n).map Prod.snd).sum))] := by
      simp [SurveyAnalyzer.truncTopN, hE, h0, hlt]
    refine ⟨heq, ?_⟩
    rw [heq]
    simp [List.length_take]
    omega
  · intro dist hne
    have hE : dist.isEmpty = false := by
      cases dist with
      | nil => exact absurd rfl hne
      | cons x xs => rfl
    constructor
    · simp [SurveyAnalyzer.truncTopN, hE]
    · simp [SurveyAnalyzer.truncTopN, hE]

/-- Witness for the amended C5 at a concrete two-entry distribution with
`top_n = 1`. -/
theorem C5_amended_witness :
    SurveyAnalyzer.truncTopN [("A", 50), ("B", 50)] (some 1)
      = (([(("A" : String), (50 : ℚ)), ("B", 50)]).take 1).map (fun p => (p.1, round2 p.2))
        ++ [("Others", round2 (((([(("A" : String), (50 : ℚ)), ("B", 50)]).drop 1).map
            Prod.snd).sum))] ∧
    (SurveyAnalyzer.truncTopN [("A", 50), ("B", 50)] (some 1)).length = 1 + 1 :=
  C5_amended_truncation.2.1 [("A", 50), ("B", 50)] 1
    (List.cons_ne_nil _ _) (by decide) (by decide)
